import Mathlib

/-!
Verification of the movement/ground/collision core of the `ascii_shooter`
repository. The definitions below are a shallow embedding of the Rust code in
`src/player/movement.rs`, `src/player/mod.rs` and `src/level/mod.rs`: `f32`
arithmetic is idealised as real arithmetic, bevy's `Vec3`/`Vec2` become real
coordinate records, and each bevy system becomes a pure function on the
player's state. The theorems at the end settle the spec's testable properties
against these definitions.
-/

namespace AsciiShooter

noncomputable section

/-- Model of bevy's `Vec3`: a 3D vector with real coordinates. -/
@[ext]
structure Vec3 where
  x : ℝ
  y : ℝ
  z : ℝ

/-- Model of bevy's `Vec2`: a 2D vector with real coordinates. -/
@[ext]
structure Vec2 where
  x : ℝ
  y : ℝ

/-- Model of `Vec3::ZERO`. -/
def Vec3.zero : Vec3 := ⟨0, 0, 0⟩

/-- Componentwise addition, modelling `Vec3 + Vec3`. -/
def Vec3.add (a b : Vec3) : Vec3 := ⟨a.x + b.x, a.y + b.y, a.z + b.z⟩

/-- Scalar multiplication, modelling `Vec3 * f32`. -/
def Vec3.scale (a : Vec3) (c : ℝ) : Vec3 := ⟨a.x * c, a.y * c, a.z * c⟩

/-- Model of `Vec3::dot`. -/
def Vec3.dot (a b : Vec3) : ℝ := a.x * b.x + a.y * b.y + a.z * b.z

/-- Model of `Vec3::length_squared`. -/
def Vec3.length_squared (a : Vec3) : ℝ := a.x ^ 2 + a.y ^ 2 + a.z ^ 2

/-- Model of `Vec3::length`. -/
def Vec3.length (a : Vec3) : ℝ := Real.sqrt a.length_squared

/-- Model of `Vec2::dot`. -/
def Vec2.dot (a b : Vec2) : ℝ := a.x * b.x + a.y * b.y

/-- Model of `Vec2::length`. -/
def Vec2.length (a : Vec2) : ℝ := Real.sqrt (a.x ^ 2 + a.y ^ 2)

/-- Horizontal speed of a velocity, as the code computes it:
`Vec2::new(v.x, v.z).length()`. -/
def horiz_speed (v : Vec3) : ℝ := (Vec2.mk v.x v.z).length

/-- Model of `MovementConfig` from `src/player/movement.rs`. -/
structure MovementConfig where
  sv_maxspeed : ℝ
  sv_accelerate : ℝ
  sv_airaccelerate : ℝ
  sv_friction : ℝ
  sv_gravity : ℝ
  sv_jumpspeed : ℝ
  sv_stopspeed : ℝ
  sv_air_wishspeed_cap : ℝ
  sv_air_speed_cap : ℝ
  player_height : ℝ
  player_radius : ℝ

/-- Model of `MovementConfig::default` from `src/player/movement.rs`. -/
def MovementConfig.default : MovementConfig where
  sv_maxspeed := 7.5
  sv_accelerate := 6.0
  sv_airaccelerate := 12.0
  sv_friction := 5.0
  sv_gravity := 12.0
  sv_jumpspeed := 6.2
  sv_stopspeed := 1.8
  sv_air_wishspeed_cap := 1.5
  sv_air_speed_cap := 25.0
  player_height := 1.8
  player_radius := 0.4

/-- Model of the `PlayerState` component. -/
structure PlayerState where
  grounded : Bool
  wish_jump : Bool
  ground_height : ℝ

/-- Model of `accelerate` (Quake-style ground acceleration) from
`src/player/movement.rs`. -/
def accelerate (velocity wish_dir : Vec3) (wish_speed accel dt : ℝ) : Vec3 :=
  let current_speed := velocity.dot wish_dir
  let add_speed := wish_speed - current_speed
  if add_speed ≤ 0 then velocity
  else
    let accel_speed := min (accel * wish_speed * dt) add_speed
    velocity.add (wish_dir.scale accel_speed)

/-- Model of `air_accelerate` (CS surf/bhop style air acceleration) from
`src/player/movement.rs`: the add-speed deficit is computed against
`min wish_speed air_wishspeed_cap` while the acceleration magnitude uses the
full `wish_speed`, and afterwards the horizontal speed is rescaled down to
`air_speed_cap` whenever it exceeds it. -/
def air_accelerate (velocity wish_dir : Vec3)
    (wish_speed accel air_wishspeed_cap air_speed_cap dt : ℝ) : Vec3 :=
  let capped_wish_speed := min wish_speed air_wishspeed_cap
  let current_speed := velocity.dot wish_dir
  let add_speed := capped_wish_speed - current_speed
  if add_speed ≤ 0 then velocity
  else
    let accel_speed := min (accel * wish_speed * dt) add_speed
    let new_vel := velocity.add (wish_dir.scale accel_speed)
    let hs := (Vec2.mk new_vel.x new_vel.z).length
    if hs > air_speed_cap then
      let scale := air_speed_cap / hs
      ⟨new_vel.x * scale, new_vel.y, new_vel.z * scale⟩
    else new_vel

/-- Model of `apply_friction` (ground friction) from `src/player/movement.rs`. -/
def apply_friction (velocity : Vec3) (friction stop_speed dt : ℝ) : Vec3 :=
  let speed := velocity.length
  if speed < 0.1 then Vec3.zero
  else
    let control := max speed stop_speed
    let drop := control * friction * dt
    let new_speed := max (speed - drop) 0
    if new_speed > 0 then velocity.scale (new_speed / speed)
    else Vec3.zero

/-- Model of the `Slope` component from `src/level/mod.rs`. -/
structure Slope where
  direction : Vec2
  rise_per_unit : ℝ

/-- Model of `Slope::height_at` from `src/level/mod.rs`. -/
def Slope.height_at (s : Slope) (slope_center half_extents world_pos : Vec3) : ℝ :=
  let relative_x := world_pos.x - slope_center.x
  let relative_z := world_pos.z - slope_center.z
  let relative_pos := Vec2.mk relative_x relative_z
  let distance_along := relative_pos.dot s.direction
  let base_top := slope_center.y + half_extents.y
  base_top + distance_along * s.rise_per_unit

/-- A floor-tagged volume as `ground_check`'s query sees it: a transform plus
`BoxCollider` and an optional `Slope` (entities with `WallCollider` or
`GroundFloor` are excluded from the query). -/
structure FloorVolume where
  center : Vec3
  half_extents : Vec3
  slope : Option Slope

/-- The supporting height a floor volume offers at the player's position:
the slope height function when the volume is a slope, else the box top
(`ground_check`, src/player/mod.rs lines 420-424). -/
def floor_top (f : FloorVolume) (player_pos : Vec3) : ℝ :=
  match f.slope with
  | some s => s.height_at f.center f.half_extents player_pos
  | none => f.center.y + f.half_extents.y

/-- The XZ-footprint test of `ground_check` (src/player/mod.rs lines 416-418). -/
def in_floor_footprint (f : FloorVolume) (player_pos : Vec3) (player_radius : ℝ) : Prop :=
  |player_pos.x - f.center.x| < f.half_extents.x + player_radius ∧
  |player_pos.z - f.center.z| < f.half_extents.z + player_radius

instance (f : FloorVolume) (player_pos : Vec3) (player_radius : ℝ) :
    Decidable (in_floor_footprint f player_pos player_radius) := by
  unfold in_floor_footprint
  infer_instance

/-- The ground-height scan of `ground_check` (src/player/mod.rs lines 404-434):
starting from the baseline 0, every floor volume whose footprint contains the
player and whose top is either low enough to step onto or strictly below the
player's center replaces the accumulator when its top is strictly higher. -/
def ground_height_scan (cfg : MovementConfig) (player_pos : Vec3)
    (floors : List FloorVolume) : ℝ :=
  let feet_y := player_pos.y - cfg.player_height / 2
  let max_step_up := (0.6 : ℝ)
  floors.foldl (fun ground_height f =>
    if in_floor_footprint f player_pos cfg.player_radius then
      let ft := floor_top f player_pos
      let can_step_up := ft ≤ feet_y + max_step_up
      let is_below_player := ft < player_pos.y
      if (can_step_up ∨ is_below_player) ∧ ft > ground_height then ft
      else ground_height
    else ground_height) 0

/-- Model of the `ground_check` system (src/player/mod.rs lines 394-443). -/
def ground_check (cfg : MovementConfig) (player_pos velocity : Vec3)
    (floors : List FloorVolume) (state : PlayerState) : PlayerState :=
  let feet_y := player_pos.y - cfg.player_height / 2
  let ground_height := ground_height_scan cfg player_pos floors
  let grounded_tolerance := (0.1 : ℝ)
  { state with
    ground_height := ground_height
    grounded := decide (feet_y ≤ ground_height + grounded_tolerance) &&
      decide (velocity.y ≤ 0.1) }

/-- Model of the `player_movement` system (src/player/mod.rs lines 445-500):
jump impulse first (which clears `grounded`), then friction+acceleration when
grounded, else air acceleration; the vertical component is untouched by the
horizontal update. -/
def player_movement (cfg : MovementConfig) (dt : ℝ) (velocity : Vec3)
    (state : PlayerState) (wish_dir : Vec3) : Vec3 × PlayerState :=
  let jumped := state.grounded && state.wish_jump
  let velocity : Vec3 := if jumped then ⟨velocity.x, cfg.sv_jumpspeed, velocity.z⟩ else velocity
  let state := if jumped then { state with grounded := false } else state
  let horiz_vel : Vec3 := ⟨velocity.x, 0, velocity.z⟩
  let horiz_vel :=
    if state.grounded then
      let hv := apply_friction horiz_vel cfg.sv_friction cfg.sv_stopspeed dt
      if wish_dir.length_squared > 0 then
        accelerate hv wish_dir cfg.sv_maxspeed cfg.sv_accelerate dt
      else hv
    else
      if wish_dir.length_squared > 0 then
        air_accelerate horiz_vel wish_dir cfg.sv_maxspeed cfg.sv_airaccelerate
          cfg.sv_air_wishspeed_cap cfg.sv_air_speed_cap dt
      else horiz_vel
  (⟨horiz_vel.x, velocity.y, horiz_vel.z⟩, state)

/-- Model of the `apply_gravity` system (src/player/mod.rs lines 502-514). -/
def apply_gravity (cfg : MovementConfig) (dt : ℝ) (velocity : Vec3)
    (state : PlayerState) : Vec3 :=
  if !state.grounded then ⟨velocity.x, velocity.y - cfg.sv_gravity * dt, velocity.z⟩
  else velocity

/-- A wall-tagged box volume (`WallCollider` + `BoxCollider`). -/
structure WallVolume where
  center : Vec3
  half_extents : Vec3

/-- A slope volume as `player_collision`'s slope query sees it. -/
structure SlopeVolume where
  center : Vec3
  half_extents : Vec3
  slope : Slope

/-- One slope-volume resolution step of `player_collision`
(src/player/mod.rs lines 535-605). `feet_y` is the foot height computed once
at the top of the system, from the position before any resolution. -/
def resolve_slope (cfg : MovementConfig) (feet_y : ℝ) (sv : SlopeVolume)
    (pos vel : Vec3) : Vec3 × Vec3 :=
  let player_radius := cfg.player_radius
  let slope_pos := sv.center
  let half := sv.half_extents
  let in_x := |pos.x - slope_pos.x| < half.x + player_radius
  let in_z := |pos.z - slope_pos.z| < half.z + player_radius
  if in_x ∧ in_z then
    let slope_height := sv.slope.height_at slope_pos half pos
    let player_bottom := feet_y
    let slope_bottom := slope_pos.y - half.y
    if player_bottom < slope_height ∧ player_bottom > slope_bottom - 0.5 then
      let height_diff := slope_height - player_bottom
      if height_diff < 0.6 then (pos, vel)
      else
        let diff_x := pos.x - slope_pos.x
        let diff_z := pos.z - slope_pos.z
        let combined_x := half.x + player_radius
        let combined_z := half.z + player_radius
        let pen_x := combined_x - |diff_x|
        let pen_z := combined_z - |diff_z|
        let pen_y := slope_height - player_bottom
        if pen_y < pen_x ∧ pen_y < pen_z ∧ pen_y < 2.0 then
          (⟨pos.x, slope_height + cfg.player_height / 2, pos.z⟩,
            if vel.y < 0 then ⟨vel.x, 0, vel.z⟩ else vel)
        else if pen_x < pen_z then
          if diff_x > 0 then
            (⟨slope_pos.x + combined_x, pos.y, pos.z⟩, ⟨max vel.x 0, vel.y, vel.z⟩)
          else
            (⟨slope_pos.x - combined_x, pos.y, pos.z⟩, ⟨min vel.x 0, vel.y, vel.z⟩)
        else
          if diff_z > 0 then
            (⟨pos.x, pos.y, slope_pos.z + combined_z⟩, ⟨vel.x, vel.y, max vel.z 0⟩)
          else
            (⟨pos.x, pos.y, slope_pos.z - combined_z⟩, ⟨vel.x, vel.y, min vel.z 0⟩)
    else (pos, vel)
  else (pos, vel)

/-- One wall resolution step of `player_collision`
(src/player/mod.rs lines 607-647): push out along the axis of smaller
penetration and clamp that velocity component toward separation. -/
def resolve_wall (player_radius : ℝ) (w : WallVolume) (pos vel : Vec3) : Vec3 × Vec3 :=
  let collider_pos := w.center
  let half := w.half_extents
  let combined_x := half.x + player_radius
  let combined_z := half.z + player_radius
  let diff_x := pos.x - collider_pos.x
  let diff_z := pos.z - collider_pos.z
  if |diff_x| < combined_x ∧ |diff_z| < combined_z then
    let pen_x := combined_x - |diff_x|
    let pen_z := combined_z - |diff_z|
    if pen_x < pen_z then
      if diff_x > 0 then
        (⟨collider_pos.x + combined_x, pos.y, pos.z⟩, ⟨max vel.x 0, vel.y, vel.z⟩)
      else
        (⟨collider_pos.x - combined_x, pos.y, pos.z⟩, ⟨min vel.x 0, vel.y, vel.z⟩)
    else
      if diff_z > 0 then
        (⟨pos.x, pos.y, collider_pos.z + combined_z⟩, ⟨vel.x, vel.y, max vel.z 0⟩)
      else
        (⟨pos.x, pos.y, collider_pos.z - combined_z⟩, ⟨vel.x, vel.y, min vel.z 0⟩)
  else (pos, vel)

/-- Model of the `player_collision` system (src/player/mod.rs lines 516-649):
floor clamp against `ground_height`, then slope-volume resolution, then wall
resolution, in the source's order. `feet_y` is computed once from the
incoming position and reused by the slope pass, as in the source. -/
def player_collision (cfg : MovementConfig) (slopes : List SlopeVolume)
    (walls : List WallVolume) (state : PlayerState) (pos vel : Vec3) : Vec3 × Vec3 :=
  let feet_y := pos.y - cfg.player_height / 2
  let pv :=
    if feet_y < state.ground_height then
      ((⟨pos.x, state.ground_height + cfg.player_height / 2, pos.z⟩ : Vec3),
        if vel.y < 0 then (⟨vel.x, 0, vel.z⟩ : Vec3) else vel)
    else (pos, vel)
  let pv := slopes.foldl (fun pv sv => resolve_slope cfg feet_y sv pv.1 pv.2) pv
  walls.foldl (fun pv w => resolve_wall cfg.player_radius w pv.1 pv.2) pv

/-- Model of the `apply_velocity` system (src/player/mod.rs lines 651-660). -/
def apply_velocity (dt : ℝ) (pos vel : Vec3) : Vec3 :=
  pos.add (vel.scale dt)

/-- One simulation tick in the plugin's chained order:
`ground_check`, `player_movement`, `apply_gravity`, `player_collision`,
`apply_velocity` (src/player/mod.rs lines 26-47). Returns the new position,
velocity and player state. -/
def player_tick (cfg : MovementConfig) (dt : ℝ) (floors : List FloorVolume)
    (slopes : List SlopeVolume) (walls : List WallVolume)
    (pos vel : Vec3) (state : PlayerState) (wish_dir : Vec3) : Vec3 × Vec3 × PlayerState :=
  let state := ground_check cfg pos vel floors state
  let mv := player_movement cfg dt vel state wish_dir
  let vel := apply_gravity cfg dt mv.1 mv.2
  let pv := player_collision cfg slopes walls mv.2 pos vel
  let pos := apply_velocity dt pv.1 pv.2
  (pos, pv.2, mv.2)

/-- Iterated air acceleration with a per-step wish direction, for speed-cap
reasoning over successive applications. -/
def air_accelerate_iter (wish : ℕ → Vec3) (ws a awc asc dt : ℝ) (v : Vec3) : ℕ → Vec3
  | 0 => v
  | n + 1 =>
      air_accelerate (air_accelerate_iter wish ws a awc asc dt v n) (wish n) ws a awc asc dt

/-! ## Helper lemmas -/

/-- A square root quotient of numerals is at most `c` once the radicand is
small enough; used to discharge the soft-cap branch on concrete inputs. -/
lemma sqrt_div_not_gt {n d c : ℝ} (hd : 0 < d) (hc : 0 < c) (h : n < c ^ 2 * d) :
    ¬ (c < Real.sqrt n / Real.sqrt d) := by
  rw [not_lt, div_le_iff₀ (Real.sqrt_pos.mpr hd)]
  calc Real.sqrt n ≤ Real.sqrt (c ^ 2 * d) := Real.sqrt_le_sqrt (le_of_lt h)
  _ = c * Real.sqrt d := by rw [Real.sqrt_mul (sq_nonneg c), Real.sqrt_sq hc.le]

/-- First strafe tick from `(0,0,-8)`: the deficit is the full capped wish
speed `1.5`, the acceleration term `12 * 7.5 * 0.016 = 1.44` is smaller, and
the soft cap does not fire. -/
lemma air_strafe_step1 :
    air_accelerate ⟨0, 0, -8⟩ ⟨1, 0, 0⟩ 7.5 12 1.5 25 0.016 = ⟨1.44, 0, -8⟩ := by
  simp only [air_accelerate, Vec3.dot, Vec3.add, Vec3.scale, Vec2.length]
  norm_num [min_def]
  intro h
  exact absurd h (sqrt_div_not_gt (by norm_num) (by norm_num) (by norm_num))

/-- Second strafe tick: the remaining deficit `0.06` is added in full. -/
lemma air_strafe_step2 :
    air_accelerate ⟨1.44, 0, -8⟩ ⟨1, 0, 0⟩ 7.5 12 1.5 25 0.016 = ⟨1.5, 0, -8⟩ := by
  simp only [air_accelerate, Vec3.dot, Vec3.add, Vec3.scale, Vec2.length]
  norm_num [min_def]
  intro h
  exact absurd h (sqrt_div_not_gt (by norm_num) (by norm_num) (by norm_num))

/-- From the third strafe tick on, the deficit is zero and the velocity is a
fixed point of the strafe step. -/
lemma air_strafe_step3 :
    air_accelerate ⟨1.5, 0, -8⟩ ⟨1, 0, 0⟩ 7.5 12 1.5 25 0.016 = ⟨1.5, 0, -8⟩ := by
  simp only [air_accelerate, Vec3.dot, Vec3.add, Vec3.scale, Vec2.length]
  norm_num [min_def]

/-- Horizontal speed of the initial velocity `(0,0,-8)`. -/
lemma horiz_speed_initial : horiz_speed ⟨0, 0, -8⟩ = 8 := by
  simp only [horiz_speed, Vec2.length]
  norm_num
  rw [show (64 : ℝ) = 8 ^ 2 by norm_num, Real.sqrt_sq (by norm_num)]

/-- The strafed velocity `(1.5,0,-8)` is strictly faster than `8`
horizontally. -/
lemma horiz_speed_strafed : horiz_speed ⟨1.5, 0, -8⟩ > 8 := by
  simp only [horiz_speed, Vec2.length]
  norm_num
  rw [show (4 : ℝ) = 2 ^ 2 by norm_num, Real.sqrt_sq (by norm_num),
    lt_div_iff₀ (by norm_num : (0 : ℝ) < 2)]
  have h := (Real.lt_sqrt (by norm_num : (0 : ℝ) ≤ 16)).mpr (by norm_num : (16 : ℝ) ^ 2 < 265)
  linarith

/-- A nonzero vector has positive length. -/
lemma Vec3.length_pos {v : Vec3} (hv : v ≠ Vec3.zero) : 0 < v.length := by
  rw [Vec3.length, Real.sqrt_pos, Vec3.length_squared]
  rcases lt_or_eq_of_le (by positivity : (0 : ℝ) ≤ v.x ^ 2 + v.y ^ 2 + v.z ^ 2) with h | h
  · exact h
  · exfalso
    apply hv
    have hx : v.x = 0 := by nlinarith [sq_nonneg v.x, sq_nonneg v.y, sq_nonneg v.z]
    have hy : v.y = 0 := by nlinarith [sq_nonneg v.x, sq_nonneg v.y, sq_nonneg v.z]
    have hz : v.z = 0 := by nlinarith [sq_nonneg v.x, sq_nonneg v.y, sq_nonneg v.z]
    exact Vec3.ext hx hy hz

/-- The zero vector has length zero. -/
lemma Vec3.length_zero : (Vec3.zero).length = 0 := by
  simp [Vec3.length, Vec3.length_squared, Vec3.zero]

/-- Length of a scalar multiple. -/
lemma Vec3.length_scale (v : Vec3) (c : ℝ) : (v.scale c).length = |c| * v.length := by
  simp only [Vec3.scale, Vec3.length, Vec3.length_squared]
  rw [show (v.x * c) ^ 2 + (v.y * c) ^ 2 + (v.z * c) ^ 2 =
      c ^ 2 * (v.x ^ 2 + v.y ^ 2 + v.z ^ 2) by ring,
    Real.sqrt_mul (sq_nonneg c), Real.sqrt_sq_eq_abs]

/-- One step of air acceleration keeps the horizontal speed below the larger
of the incoming horizontal speed and the (nonnegative) air speed cap: the
early return keeps it unchanged, the rescale branch lands exactly on the cap,
and the remaining branch is below the cap by the branch condition. -/
lemma air_accelerate_horiz_le (v w : Vec3) (ws a awc asc dt : ℝ) (hc : 0 ≤ asc) :
    horiz_speed (air_accelerate v w ws a awc asc dt) ≤ max (horiz_speed v) asc := by
  simp only [air_accelerate, horiz_speed, Vec2.length]
  split_ifs with h1 h2
  · exact le_max_left _ _
  · set nx := (Vec3.add v (Vec3.scale w (min (a * ws * dt) (min ws awc - v.dot w)))).x with hnx
    set nz := (Vec3.add v (Vec3.scale w (min (a * ws * dt) (min ws awc - v.dot w)))).z with hnz
    set L := Real.sqrt (nx ^ 2 + nz ^ 2) with hL
    have hLpos : 0 < L := lt_of_le_of_lt hc h2
    have e : (nx * (asc / L)) ^ 2 + (nz * (asc / L)) ^ 2 = (L * (asc / L)) ^ 2 := by
      rw [mul_pow L, hL, Real.sq_sqrt (by positivity)]
      ring
    rw [e, Real.sqrt_sq (by positivity), mul_comm, div_mul_cancel₀ _ hLpos.ne']
    exact le_max_right _ _
  · exact le_trans (not_lt.mp h2) (le_max_right _ _)

/-- The ground-height fold never drops below a nonnegative accumulator. -/
lemma ground_scan_fold_nonneg (cfg : MovementConfig) (pos : Vec3)
    (floors : List FloorVolume) (acc : ℝ) (hacc : 0 ≤ acc) :
    0 ≤ List.foldl
      (fun ground_height f =>
        if in_floor_footprint f pos cfg.player_radius then
          if (floor_top f pos ≤ pos.y - cfg.player_height / 2 + 0.6 ∨
                floor_top f pos < pos.y) ∧ floor_top f pos > ground_height then
            floor_top f pos
          else ground_height
        else ground_height)
      acc floors := by
  induction floors generalizing acc with
  | nil => exact hacc
  | cons f fs ih =>
      rw [List.foldl_cons]
      apply ih
      split_ifs with h1 h2
      · exact le_of_lt (lt_of_le_of_lt hacc h2.2)
      · exact hacc
      · exact hacc

/-- Distance to the wall center after one `resolve_wall` step on an
overlapping configuration, on the axis of smaller penetration. -/
lemma resolve_wall_dist (r : ℝ) (w : WallVolume) (pos vel : Vec3)
    (hx : |pos.x - w.center.x| < w.half_extents.x + r)
    (hz : |pos.z - w.center.z| < w.half_extents.z + r) :
    ((w.half_extents.x + r) - |pos.x - w.center.x| <
        (w.half_extents.z + r) - |pos.z - w.center.z| →
      |(resolve_wall r w pos vel).1.x - w.center.x| = w.half_extents.x + r) ∧
    (¬ ((w.half_extents.x + r) - |pos.x - w.center.x| <
        (w.half_extents.z + r) - |pos.z - w.center.z|) →
      |(resolve_wall r w pos vel).1.z - w.center.z| = w.half_extents.z + r) := by
  have hcx : 0 ≤ w.half_extents.x + r := le_trans (abs_nonneg _) hx.le
  have hcz : 0 ≤ w.half_extents.z + r := le_trans (abs_nonneg _) hz.le
  simp only [resolve_wall]
  rw [if_pos ⟨hx, hz⟩]
  constructor
  · intro hpen
    rw [if_pos hpen]
    split_ifs with hdx
    · simp only
      rw [show w.center.x + (w.half_extents.x + r) - w.center.x = w.half_extents.x + r by ring,
        abs_of_nonneg hcx]
    · simp only
      rw [show w.center.x - (w.half_extents.x + r) - w.center.x = -(w.half_extents.x + r)
          by ring,
        abs_neg, abs_of_nonneg hcx]
  · intro hpen
    rw [if_neg hpen]
    split_ifs with hdz
    · simp only
      rw [show w.center.z + (w.half_extents.z + r) - w.center.z = w.half_extents.z + r by ring,
        abs_of_nonneg hcz]
    · simp only
      rw [show w.center.z - (w.half_extents.z + r) - w.center.z = -(w.half_extents.z + r)
          by ring,
        abs_neg, abs_of_nonneg hcz]

/-- Full evaluation of the jump tick: with the default tuning, feet exactly on
the baseline floor, no vertical velocity, no colliders, zero wish direction
and the jump key held, `ground_check` grounds the player, the movement step
sets the vertical velocity to `6.2`, gravity brings it to `5.0`, and the
integrated position rises by exactly `0.5`. -/
lemma jump_tick_eval (pos vel : Vec3) (st : PlayerState)
    (hpos : pos.y = 0.9) (hvy : vel.y = 0) (hj : st.wish_jump = true) :
    ground_check MovementConfig.default pos vel [] st =
      { st with ground_height := 0, grounded := true } ∧
    player_movement MovementConfig.default 0.1 vel
        ({ st with ground_height := 0, grounded := true }) ⟨0, 0, 0⟩ =
      (⟨vel.x, 6.2, vel.z⟩, { st with ground_height := 0, grounded := false }) ∧
    player_tick MovementConfig.default 0.1 [] [] [] pos vel st ⟨0, 0, 0⟩ =
      (⟨pos.x + vel.x * 0.1, pos.y + 0.5, pos.z + vel.z * 0.1⟩, ⟨vel.x, 5, vel.z⟩,
        { st with ground_height := 0, grounded := false }) := by
  have hgc : ground_check MovementConfig.default pos vel [] st =
      { st with ground_height := 0, grounded := true } := by
    simp only [ground_check, ground_height_scan, List.foldl_nil, MovementConfig.default]
    congr 1
    rw [hpos, hvy]
    simp only [Bool.and_eq_true, decide_eq_true_eq]
    norm_num
  have hmv : player_movement MovementConfig.default 0.1 vel
      ({ st with ground_height := 0, grounded := true }) ⟨0, 0, 0⟩ =
      (⟨vel.x, 6.2, vel.z⟩, { st with ground_height := 0, grounded := false }) := by
    simp only [player_movement, hj, Bool.and_self, if_true, Bool.false_eq_true, if_false,
      MovementConfig.default]
    rw [if_neg (by norm_num [Vec3.length_squared])]
  have hgrav : apply_gravity MovementConfig.default 0.1 (⟨vel.x, 6.2, vel.z⟩ : Vec3)
      ({ st with ground_height := 0, grounded := false }) = ⟨vel.x, 5, vel.z⟩ := by
    simp only [apply_gravity, MovementConfig.default, Bool.not_false, if_true]
    norm_num
  have hcol : player_collision MovementConfig.default [] []
      ({ st with ground_height := 0, grounded := false }) pos (⟨vel.x, 5, vel.z⟩ : Vec3) =
      (pos, ⟨vel.x, 5, vel.z⟩) := by
    simp only [player_collision, List.foldl_nil, MovementConfig.default]
    rw [if_neg (by rw [hpos]; norm_num)]
  refine ⟨hgc, hmv, ?_⟩
  simp only [player_tick, hgc, hmv, hgrav, hcol, apply_velocity, Vec3.add, Vec3.scale]
  rw [hpos]
  norm_num

/-! ## Claim theorems -/

/-- Claim C1: starting from velocity `(0,0,-8)` and applying `air_accelerate`
30 times with the perpendicular wish direction `(1,0,0)` and tuning
`wish_speed = 7.5`, `accel = 12`, `air_wishspeed_cap = 1.5`,
`air_speed_cap = 25`, `dt = 0.016`, the horizontal speed strictly exceeds the
initial horizontal speed, which is `8`. -/
theorem air_strafe_speed_gain :
    horiz_speed ((fun v => air_accelerate v ⟨1, 0, 0⟩ 7.5 12 1.5 25 0.016)^[30] ⟨0, 0, -8⟩) >
      horiz_speed ⟨0, 0, -8⟩ ∧ horiz_speed ⟨0, 0, -8⟩ = 8 := by
  have hF2 : (fun v => air_accelerate v ⟨1, 0, 0⟩ 7.5 12 1.5 25 0.016)^[2] ⟨0, 0, -8⟩ =
      ⟨1.5, 0, -8⟩ := by
    show air_accelerate (air_accelerate ⟨0, 0, -8⟩ ⟨1, 0, 0⟩ 7.5 12 1.5 25 0.016)
      ⟨1, 0, 0⟩ 7.5 12 1.5 25 0.016 = (⟨1.5, 0, -8⟩ : Vec3)
    rw [air_strafe_step1, air_strafe_step2]
  have h30 : (fun v => air_accelerate v ⟨1, 0, 0⟩ 7.5 12 1.5 25 0.016)^[30] ⟨0, 0, -8⟩ =
      ⟨1.5, 0, -8⟩ := by
    rw [show (30 : ℕ) = 28 + 2 from rfl, Function.iterate_add_apply, hF2,
      Function.iterate_fixed air_strafe_step3 28]
  rw [h30, horiz_speed_initial]
  exact ⟨horiz_speed_strafed, rfl⟩

/-- Claim C2, counterexample to the claim as stated: a velocity whose
horizontal speed is already `26 > 25 = air_speed_cap` is returned unchanged by
`air_accelerate` (the add-speed deficit is negative), so after one application
the horizontal speed still exceeds `air_speed_cap + 1/2`. -/
theorem air_speed_cap_cx :
    air_accelerate_iter (fun _ => ⟨1, 0, 0⟩) 7.5 12 1.5 25 0.016 ⟨26, 0, 0⟩ 1 = ⟨26, 0, 0⟩ ∧
      ¬ (horiz_speed (air_accelerate_iter (fun _ => ⟨1, 0, 0⟩) 7.5 12 1.5 25 0.016
          ⟨26, 0, 0⟩ 1) ≤ 25 + 1 / 2) := by
  have h1 : air_accelerate_iter (fun _ => ⟨1, 0, 0⟩) 7.5 12 1.5 25 0.016 ⟨26, 0, 0⟩ 1 =
      ⟨26, 0, 0⟩ := by
    simp only [air_accelerate_iter, air_accelerate, Vec3.dot]
    norm_num [min_def]
  refine ⟨h1, ?_⟩
  rw [h1]
  simp only [horiz_speed, Vec2.length]
  rw [show (26 : ℝ) ^ 2 + 0 ^ 2 = 26 ^ 2 by norm_num, Real.sqrt_sq (by norm_num)]
  norm_num

/-- Claim C2, amended: for every input velocity, every sequence of wish
directions and every number of successive `air_accelerate` applications with a
nonnegative `air_speed_cap`, the resulting horizontal speed never exceeds the
larger of the initial horizontal speed and `air_speed_cap` (no epsilon is
needed in exact arithmetic). -/
theorem air_speed_cap_bound (v0 : Vec3) (wish : ℕ → Vec3) (ws a awc asc dt : ℝ)
    (hc : 0 ≤ asc) (n : ℕ) :
    horiz_speed (air_accelerate_iter wish ws a awc asc dt v0 n) ≤ max (horiz_speed v0) asc := by
  induction n with
  | zero => exact le_max_left _ _
  | succ n ih =>
      calc horiz_speed (air_accelerate_iter wish ws a awc asc dt v0 (n + 1)) ≤
          max (horiz_speed (air_accelerate_iter wish ws a awc asc dt v0 n)) asc :=
            air_accelerate_horiz_le _ _ _ _ _ _ _ hc
      _ ≤ max (max (horiz_speed v0) asc) asc := max_le_max ih le_rfl
      _ = max (horiz_speed v0) asc := by rw [max_assoc, max_self]

/-- Witness for C2's amended theorem at a concrete input. -/
theorem air_speed_cap_bound_witness :
    horiz_speed (air_accelerate_iter (fun _ => ⟨1, 0, 0⟩) 7.5 12 1.5 25 0.016 ⟨0, 0, -8⟩ 5) ≤
      max (horiz_speed ⟨0, 0, -8⟩) 25 :=
  air_speed_cap_bound ⟨0, 0, -8⟩ (fun _ => ⟨1, 0, 0⟩) 7.5 12 1.5 25 0.016 (by norm_num) 5

/-- Claim C3, counterexample to the claim as stated: in the concrete jump
tick the position rises by exactly `0.5`, which is not within `0.1` of the
claimed `0.62`, because gravity is applied to the vertical velocity before the
position is integrated. -/
theorem jump_tick_arc_cx :
    (player_tick MovementConfig.default 0.1 [] [] [] ⟨0, 0.9, 0⟩ ⟨0, 0, 0⟩
        ⟨false, true, 0⟩ ⟨0, 0, 0⟩).1.y - 0.9 = 0.5 ∧
    ¬ (|(player_tick MovementConfig.default 0.1 [] [] [] ⟨0, 0.9, 0⟩ ⟨0, 0, 0⟩
        ⟨false, true, 0⟩ ⟨0, 0, 0⟩).1.y - 0.9 - 0.62| < 0.1) := by
  obtain ⟨-, -, ht⟩ := jump_tick_eval ⟨0, 0.9, 0⟩ ⟨0, 0, 0⟩ ⟨false, true, 0⟩ rfl rfl rfl
  rw [ht]
  norm_num [abs_of_nonneg]

/-- Claim C3, amended: with the default tuning (`jump_speed = 6.2`,
`gravity = 12`), feet on the baseline floor, vertical velocity `0`, jump held
and no colliders, the movement step immediately sets the vertical velocity to
`6.2`; after the full `dt = 0.1` tick the vertical velocity is
`6.2 - 1.2 = 5.0` and the position has risen by exactly `0.5` (the
post-gravity velocity times `dt`, since gravity is applied before
integration). -/
theorem jump_tick_arc (pos vel : Vec3) (st : PlayerState)
    (hpos : pos.y = 0.9) (hvy : vel.y = 0) (hj : st.wish_jump = true) :
    (player_movement MovementConfig.default 0.1 vel
        (ground_check MovementConfig.default pos vel [] st) ⟨0, 0, 0⟩).1.y = 6.2 ∧
    (player_tick MovementConfig.default 0.1 [] [] [] pos vel st ⟨0, 0, 0⟩).2.1.y = 5 ∧
    (player_tick MovementConfig.default 0.1 [] [] [] pos vel st ⟨0, 0, 0⟩).1.y =
      pos.y + 0.5 := by
  obtain ⟨hgc, hmv, ht⟩ := jump_tick_eval pos vel st hpos hvy hj
  rw [hgc, hmv, ht]
  exact ⟨rfl, rfl, rfl⟩

/-- Witness for C3's amended theorem at a concrete input. -/
theorem jump_tick_arc_witness :
    (player_movement MovementConfig.default 0.1 ⟨0, 0, 0⟩
        (ground_check MovementConfig.default ⟨0, 0.9, 0⟩ ⟨0, 0, 0⟩ [] ⟨true, true, 0⟩)
        ⟨0, 0, 0⟩).1.y = 6.2 ∧
    (player_tick MovementConfig.default 0.1 [] [] [] ⟨0, 0.9, 0⟩ ⟨0, 0, 0⟩ ⟨true, true, 0⟩
        ⟨0, 0, 0⟩).2.1.y = 5 ∧
    (player_tick MovementConfig.default 0.1 [] [] [] ⟨0, 0.9, 0⟩ ⟨0, 0, 0⟩ ⟨true, true, 0⟩
        ⟨0, 0, 0⟩).1.y = (Vec3.mk 0 0.9 0).y + 0.5 :=
  jump_tick_arc ⟨0, 0.9, 0⟩ ⟨0, 0, 0⟩ ⟨true, true, 0⟩ rfl rfl rfl

/-- Claim C4: inside a floor volume's footprint, a floor top `0.55` above the
current feet height (within `max_step_up = 0.6`) becomes the supporting
surface, while a floor top `0.8` above the feet (exceeding `max_step_up`)
becomes the supporting surface exactly when it lies strictly below the
player's center, and otherwise the ground height stays at the baseline `0`. -/
theorem ground_check_step_up (cfg : MovementConfig) (pos vel : Vec3) (st : PlayerState)
    (f : FloorVolume) (hfp : in_floor_footprint f pos cfg.player_radius)
    (hft : 0 < floor_top f pos) :
    (floor_top f pos = (pos.y - cfg.player_height / 2) + 0.55 →
      (ground_check cfg pos vel [f] st).ground_height = floor_top f pos) ∧
    (floor_top f pos = (pos.y - cfg.player_height / 2) + 0.8 →
      (((ground_check cfg pos vel [f] st).ground_height = floor_top f pos) ↔
        floor_top f pos < pos.y) ∧
      (¬ floor_top f pos < pos.y → (ground_check cfg pos vel [f] st).ground_height = 0)) := by
  have hscan : (ground_check cfg pos vel [f] st).ground_height =
      if (floor_top f pos ≤ pos.y - cfg.player_height / 2 + 0.6 ∨ floor_top f pos < pos.y) ∧
          floor_top f pos > 0 then floor_top f pos else 0 := by
    simp only [ground_check, ground_height_scan, List.foldl_cons, List.foldl_nil, if_pos hfp]
  constructor
  · intro h55
    rw [hscan, if_pos ⟨Or.inl (by rw [h55]; linarith), hft⟩]
  · intro h80
    constructor
    · constructor
      · intro heq
        by_contra hnb
        rw [hscan, if_neg] at heq
        · exact hnb (by linarith [heq ▸ hft])
        · rintro ⟨hor, -⟩
          rcases hor with hstep | hbelow
          · rw [h80] at hstep; linarith
          · exact hnb hbelow
      · intro hb
        rw [hscan, if_pos ⟨Or.inr hb, hft⟩]
    · intro hnb
      rw [hscan, if_neg]
      rintro ⟨hor, -⟩
      rcases hor with hstep | hbelow
      · rw [h80] at hstep; linarith
      · exact hnb hbelow

/-- Witness for C4 at a concrete input: a box floor with top `0.55` above the
feet of a player standing at height `0.9` becomes the supporting surface. -/
theorem ground_check_step_up_witness :
    (ground_check MovementConfig.default ⟨0, 0.9, 0⟩ ⟨0, 0, 0⟩
        [⟨⟨0, 0, 0⟩, ⟨1, 0.55, 1⟩, none⟩] ⟨false, false, 0⟩).ground_height =
      floor_top ⟨⟨0, 0, 0⟩, ⟨1, 0.55, 1⟩, none⟩ ⟨0, 0.9, 0⟩ :=
  (ground_check_step_up MovementConfig.default ⟨0, 0.9, 0⟩ ⟨0, 0, 0⟩ ⟨false, false, 0⟩
      ⟨⟨0, 0, 0⟩, ⟨1, 0.55, 1⟩, none⟩
      (by norm_num [in_floor_footprint, MovementConfig.default])
      (by norm_num [floor_top])).1
    (by norm_num [floor_top, MovementConfig.default])

/-- Claim C5, counterexample to the claim as stated: with a negative friction
coefficient the drop is negative and `apply_friction` increases the speed, so
the monotonicity claim fails without a nonnegativity assumption on the
friction coefficient. -/
theorem apply_friction_cx :
    apply_friction ⟨1, 0, 0⟩ (-1) 0 1 = ⟨2, 0, 0⟩ ∧
      ¬ ((apply_friction ⟨1, 0, 0⟩ (-1) 0 1).length ≤ (Vec3.mk 1 0 0).length) := by
  have hlen1 : (Vec3.mk 1 0 0).length = 1 := by
    simp [Vec3.length, Vec3.length_squared]
  have h1 : apply_friction ⟨1, 0, 0⟩ (-1) 0 1 = ⟨2, 0, 0⟩ := by
    simp only [apply_friction, hlen1]
    norm_num [max_def, Vec3.scale]
  refine ⟨h1, ?_⟩
  rw [h1, hlen1]
  have hlen2 : (Vec3.mk 2 0 0).length = 2 := by
    simp only [Vec3.length, Vec3.length_squared]
    rw [show (2 : ℝ) ^ 2 + 0 ^ 2 + 0 ^ 2 = 2 ^ 2 by norm_num, Real.sqrt_sq (by norm_num)]
  rw [hlen2]
  norm_num

/-- Claim C5, amended: for every nonzero velocity, every `dt > 0` and every
nonnegative friction coefficient, `apply_friction` does not increase the
speed, and the speed is preserved only when `f * max |v| s * dt = 0`. -/
theorem apply_friction_monotone (v : Vec3) (f s dt : ℝ) (hv : v ≠ Vec3.zero) (hdt : 0 < dt)
    (hf : 0 ≤ f) :
    (apply_friction v f s dt).length ≤ v.length ∧
      ((apply_friction v f s dt).length = v.length → f * max v.length s * dt = 0) := by
  have hlen : 0 < v.length := Vec3.length_pos hv
  have hctrl : 0 < max v.length s := lt_of_lt_of_le hlen (le_max_left _ _)
  have hdrop : 0 ≤ max v.length s * f * dt :=
    mul_nonneg (mul_nonneg hctrl.le hf) hdt.le
  simp only [apply_friction]
  split_ifs with h1 h2
  · refine ⟨by rw [Vec3.length_zero]; exact hlen.le, fun he => ?_⟩
    rw [Vec3.length_zero] at he
    linarith
  · rw [Vec3.length_scale,
      abs_of_nonneg (div_nonneg (le_max_right _ _) hlen.le),
      div_mul_cancel₀ _ hlen.ne']
    constructor
    · exact max_le (by linarith) hlen.le
    · intro he
      by_cases hld : v.length - max v.length s * f * dt ≤ 0
      · rw [max_eq_right hld] at he
        linarith
      · rw [max_eq_left (by linarith)] at he
        have h0 : max v.length s * f * dt = 0 := by linarith
        calc f * max v.length s * dt = max v.length s * f * dt := by ring
        _ = 0 := h0
  · refine ⟨by rw [Vec3.length_zero]; exact hlen.le, fun he => ?_⟩
    rw [Vec3.length_zero] at he
    linarith

/-- Witness for C5's amended theorem at a concrete input. -/
theorem apply_friction_monotone_witness :
    (apply_friction ⟨3, 0, 0⟩ 5 1.8 0.1).length ≤ (Vec3.mk 3 0 0).length :=
  (apply_friction_monotone ⟨3, 0, 0⟩ 5 1.8 0.1
    (by norm_num [Vec3.zero, Vec3.mk.injEq]) (by norm_num) (by norm_num)).1

/-- Claim C6: the slope height at a world point is the volume's nominal top
height plus the signed projection of the point's horizontal offset from the
center onto the rise direction, times `rise_per_unit`; in particular, for a
unit rise direction and `rise_per_unit = 0.2`, a point `10` units along the
rise direction has height exactly `2` above the nominal top. -/
theorem slope_height_at_spec (d : Vec2) (c h : Vec3) (y0 : ℝ)
    (hd : d.x ^ 2 + d.y ^ 2 = 1) :
    (∀ (s : Slope) (p : Vec3),
      s.height_at c h p =
        (c.y + h.y) + ((p.x - c.x) * s.direction.x + (p.z - c.z) * s.direction.y) *
          s.rise_per_unit) ∧
    Slope.height_at ⟨d, 0.2⟩ c h ⟨c.x + 10 * d.x, y0, c.z + 10 * d.y⟩ = (c.y + h.y) + 2 := by
  constructor
  · intro s p
    simp only [Slope.height_at, Vec2.dot]
  · simp only [Slope.height_at, Vec2.dot]
    ring_nf
    nlinarith [hd]

/-- Witness for C6 at a concrete input. -/
theorem slope_height_at_spec_witness :
    Slope.height_at ⟨⟨0, 1⟩, 0.2⟩ ⟨1, 2, 3⟩ ⟨4, 1, 4⟩ ⟨1 + 10 * 0, 0, 3 + 10 * 1⟩ =
      (2 + 1) + 2 :=
  (slope_height_at_spec ⟨0, 1⟩ ⟨1, 2, 3⟩ ⟨4, 1, 4⟩ 0 (by norm_num)).2

/-- Claim C7: when no floor volume's footprint contains the player's
horizontal position (in particular for an empty floor list), `ground_check`
leaves the ground height at the baseline `0`. -/
theorem ground_check_no_floor (cfg : MovementConfig) (pos vel : Vec3)
    (floors : List FloorVolume) (st : PlayerState)
    (h : ∀ f ∈ floors, ¬ in_floor_footprint f pos cfg.player_radius) :
    (ground_check cfg pos vel floors st).ground_height = 0 := by
  simp only [ground_check, ground_height_scan]
  induction floors with
  | nil => rfl
  | cons f fs ih =>
      rw [List.foldl_cons, if_neg (h f (List.mem_cons_self f fs))]
      exact ih fun g hg => h g (List.mem_cons_of_mem f hg)

/-- Witness for C7 with an empty collider list. -/
theorem ground_check_no_floor_witness :
    (ground_check MovementConfig.default ⟨0, 5, 0⟩ ⟨0, 0, 0⟩ [] ⟨false, false, 0⟩).ground_height =
      0 :=
  ground_check_no_floor MovementConfig.default ⟨0, 5, 0⟩ ⟨0, 0, 0⟩ [] ⟨false, false, 0⟩
    (by intro f hf; simp at hf)

/-- Claim C8: after one resolution pass against a single penetrating
wall-tagged box volume, the horizontal distance from the player to the wall
center along the resolved axis is exactly that axis's half extent plus the
player radius. -/
theorem wall_pushout (cfg : MovementConfig) (w : WallVolume) (st : PlayerState) (pos vel : Vec3)
    (hx : |pos.x - w.center.x| < w.half_extents.x + cfg.player_radius)
    (hz : |pos.z - w.center.z| < w.half_extents.z + cfg.player_radius) :
    ((w.half_extents.x + cfg.player_radius) - |pos.x - w.center.x| <
        (w.half_extents.z + cfg.player_radius) - |pos.z - w.center.z| →
      |(player_collision cfg [] [w] st pos vel).1.x - w.center.x| =
        w.half_extents.x + cfg.player_radius) ∧
    (¬ ((w.half_extents.x + cfg.player_radius) - |pos.x - w.center.x| <
        (w.half_extents.z + cfg.player_radius) - |pos.z - w.center.z|) →
      |(player_collision cfg [] [w] st pos vel).1.z - w.center.z| =
        w.half_extents.z + cfg.player_radius) := by
  simp only [player_collision, List.foldl_nil, List.foldl_cons]
  split_ifs with hclamp hvy
  · exact resolve_wall_dist cfg.player_radius w
      ⟨pos.x, st.ground_height + cfg.player_height / 2, pos.z⟩ ⟨vel.x, 0, vel.z⟩ hx hz
  · exact resolve_wall_dist cfg.player_radius w
      ⟨pos.x, st.ground_height + cfg.player_height / 2, pos.z⟩ vel hx hz
  · exact resolve_wall_dist cfg.player_radius w pos vel hx hz

/-- Witness for C8 at a concrete input: a player at `x = 1.2` inside a unit
wall at the origin is pushed out to distance `1 + 0.4` on the x axis. -/
theorem wall_pushout_witness :
    |(player_collision MovementConfig.default [] [⟨⟨0, 0, 0⟩, ⟨1, 1, 1⟩⟩] ⟨false, false, 0⟩
        ⟨1.2, 0.9, 0.1⟩ ⟨0, 0, 0⟩).1.x - 0| = (1 : ℝ) + 0.4 :=
  (wall_pushout MovementConfig.default ⟨⟨0, 0, 0⟩, ⟨1, 1, 1⟩⟩ ⟨false, false, 0⟩
      ⟨1.2, 0.9, 0.1⟩ ⟨0, 0, 0⟩
      (by norm_num [MovementConfig.default, abs_of_nonneg])
      (by norm_num [MovementConfig.default, abs_of_nonneg])).1
    (by norm_num [MovementConfig.default, abs_of_nonneg])

/-- Claim C9: on a tick that starts grounded with the jump held, the jump
clears the grounded flag before the friction/acceleration branch, so the
horizontal velocity is updated by `air_accelerate` alone (or left unchanged
for a zero wish direction) and ground friction is never applied; the vertical
velocity becomes the jump speed. -/
theorem jump_skips_friction (cfg : MovementConfig) (dt : ℝ) (vel : Vec3) (st : PlayerState)
    (wish : Vec3) (hg : st.grounded = true) (hj : st.wish_jump = true) :
    (player_movement cfg dt vel st wish).2.grounded = false ∧
    (player_movement cfg dt vel st wish).1.y = cfg.sv_jumpspeed ∧
    (wish.length_squared > 0 →
      (player_movement cfg dt vel st wish).1.x =
        (air_accelerate ⟨vel.x, 0, vel.z⟩ wish cfg.sv_maxspeed cfg.sv_airaccelerate
          cfg.sv_air_wishspeed_cap cfg.sv_air_speed_cap dt).x ∧
      (player_movement cfg dt vel st wish).1.z =
        (air_accelerate ⟨vel.x, 0, vel.z⟩ wish cfg.sv_maxspeed cfg.sv_airaccelerate
          cfg.sv_air_wishspeed_cap cfg.sv_air_speed_cap dt).z) ∧
    (¬ (wish.length_squared > 0) →
      (player_movement cfg dt vel st wish).1.x = vel.x ∧
      (player_movement cfg dt vel st wish).1.z = vel.z) := by
  simp only [player_movement, hg, hj, Bool.and_self, if_true, Bool.false_eq_true, if_false]
  refine ⟨trivial, trivial, fun hw => ?_, fun hw => ?_⟩
  · rw [if_pos hw]
    exact ⟨rfl, rfl⟩
  · rw [if_neg hw]
    exact ⟨rfl, rfl⟩

/-- Witness for C9 at a concrete input. -/
theorem jump_skips_friction_witness :
    (player_movement MovementConfig.default 0.016 ⟨3, 0, -1⟩ ⟨true, true, 0⟩
        ⟨0, 0, 1⟩).2.grounded = false ∧
    (player_movement MovementConfig.default 0.016 ⟨3, 0, -1⟩ ⟨true, true, 0⟩ ⟨0, 0, 1⟩).1.y =
      MovementConfig.default.sv_jumpspeed :=
  ⟨(jump_skips_friction MovementConfig.default 0.016 ⟨3, 0, -1⟩ ⟨true, true, 0⟩ ⟨0, 0, 1⟩
      rfl rfl).1,
    (jump_skips_friction MovementConfig.default 0.016 ⟨3, 0, -1⟩ ⟨true, true, 0⟩ ⟨0, 0, 1⟩
      rfl rfl).2.1⟩

/-- Claim C10: for every collider set and every player state, the ground
height computed by `ground_check` is nonnegative — it starts at the baseline
`0` and a candidate floor only replaces it when its top is strictly higher,
so a floor whose top lies below `y = 0` can never become the supporting
surface. -/
theorem ground_height_nonneg (cfg : MovementConfig) (pos vel : Vec3)
    (floors : List FloorVolume) (st : PlayerState) :
    0 ≤ (ground_check cfg pos vel floors st).ground_height := by
  simp only [ground_check, ground_height_scan]
  exact ground_scan_fold_nonneg cfg pos floors 0 le_rfl

end

end AsciiShooter
